import Mathlib

/-!
Verification of the upload middleware of psb-api-identigraf-uploader
(src/middleware/upload.ts): validators for single- and multi-file
uploads, the staged-file cleanup pass, and the upload-error translator.

The request pipeline state is modelled explicitly: the filesystem is the
list of paths currently on disk, and each middleware produces, besides
the new filesystem, the observable trace of its actions (unlink attempts
and the final call to `next`).
-/

/-- Metadata of one uploaded file staged on disk (multer's file record):
field name, path of the temporary file, declared MIME type, size in bytes. -/
structure StagedFile where
  fieldname : String
  path : String
  mimetype : String
  size : Nat
deriving DecidableEq

/-- Shape of `req.files`: either an ordered array of files (produced by
`.array(field)`) or a collection grouped by field name. -/
inductive ReqFiles where
  | array (files : List StagedFile)
  | grouped (groups : List (String × List StagedFile))
deriving DecidableEq

/-- The request-scoped upload context: `req.file` and `req.files`, each
possibly absent. -/
structure UploadRequest where
  file : Option StagedFile
  files : Option ReqFiles
deriving DecidableEq

/-- The service's error payload shape (`ErrorResponse`). -/
structure ErrorResponse where
  success : Bool
  status : Nat
  code : String
  message : String
deriving DecidableEq

/-- JavaScript's `String.prototype.startsWith`, over the characters. -/
def jsStartsWith (s p : String) : Bool :=
  p.data.isPrefixOf s.data

/-- `noFile` constant of upload.ts. -/
def noFile : ErrorResponse :=
  ⟨false, 400, "NO_FILES", "No files found in the request"⟩

/-- `tooFewFiles` constant of upload.ts. -/
def tooFewFiles : ErrorResponse :=
  ⟨false, 400, "TOO_FEW_FILES", "Too few files uploaded"⟩

/-- `badFile` constant of upload.ts. -/
def badFile : ErrorResponse :=
  ⟨false, 400, "UNSUPPORTED_FILE", "Unsupported file type"⟩

/-- `emptyFile` constant of upload.ts. -/
def emptyFile : ErrorResponse :=
  ⟨false, 400, "EMPTY_FILE", "Empty file uploaded"⟩

/-- The validation step of `uploadSingleFileMiddleware`: the anonymous
handler that inspects `req.file` and calls `next` with an error or with
nothing. `none` means control passes onward with no error. -/
def uploadSingleFileMiddleware (req : UploadRequest) : Option ErrorResponse :=
  match req.file with
  | none => some noFile
  | some f =>
    if !(jsStartsWith f.mimetype "image/") then some badFile
    else if f.size == 0 then some emptyFile
    else none

/-- The `for (const { mimetype, size } of req.files)` loop of
`uploadMultipleFilesMiddleware`: per file, the MIME check runs before the
size check, and the first violation fails the whole request. -/
def checkFilesLoop : List StagedFile → Option ErrorResponse
  | [] => none
  | f :: rest =>
    if !(jsStartsWith f.mimetype "image/") then some badFile
    else if f.size == 0 then some emptyFile
    else checkFilesLoop rest

/-- The validation step of `uploadMultipleFilesMiddleware` (minFiles is the
configured minimum; the acceptor's maxFiles plays no role here): rejects
when `req.files` is not an array or is empty, then when the count is below
`minFiles`, then scans the files in order. -/
def uploadMultipleFilesMiddleware (minFiles : Nat) (req : UploadRequest) :
    Option ErrorResponse :=
  match req.files with
  | some (ReqFiles.array l) =>
    if l.length == 0 then some noFile
    else if l.length < minFiles then some tooFewFiles
    else checkFilesLoop l
  | _ => some noFile

/-- The list of staged-file paths `cleanupFiles` passes to `unlink`: the
single `req.file` if present, else each member of an array `req.files`,
else every file of every field group of a grouped `req.files`
(`Object.keys(files).forEach(key => files[key].forEach(...))`). -/
def cleanupList (req : UploadRequest) : List String :=
  match req.file with
  | some f => [f.path]
  | none =>
    match req.files with
    | none => []
    | some (ReqFiles.array l) => l.map (fun f => f.path)
    | some (ReqFiles.grouped gs) =>
      (gs.map (fun g => g.2.map (fun f => f.path))).flatten

/-- An error value flowing through the express error chain: a multer
limit error (code and message), a service `ErrorResponse`, or any other
error. -/
inductive Err where
  | multer (code : String) (message : String)
  | response (r : ErrorResponse)
  | generic (tag : String)
deriving DecidableEq

/-- Observable action of the teardown middlewares: an unlink attempt on a
path (`ok` records whether the file existed and was removed) or a call to
`next` with an optional error. -/
inductive Event where
  | unlinked (path : String) (ok : Bool)
  | nextCalled (e : Option Err)
deriving DecidableEq

/-- Modelled from the spec: `unlink` of src/utils.ts is not under src/.
Section 7 of the spec says cleanup removal failures are best-effort and a
failed removal never re-throws into the request pipeline, so `unlink`
removes the path from the filesystem when present and reports failure
(for an absent file) without raising. -/
def unlink (p : String) (fs : List String) : List String × Bool :=
  (fs.filter (fun q => !(q == p)), fs.contains p)

/-- Runs the unlink attempts of a cleanup pass over the paths in order,
threading the filesystem and recording one `Event.unlinked` per path. -/
def runUnlinks : List String → List String → List String × List Event
  | [], fs => (fs, [])
  | p :: ps, fs =>
    let u := unlink p fs
    let rest := runUnlinks ps u.1
    (rest.1, Event.unlinked p u.2 :: rest.2)

/-- `cleanupFiles(req)`: attempts removal of every staged file referenced
by the request context (the paths of `cleanupList`). -/
def cleanupFiles (req : UploadRequest) (fs : List String) :
    List String × List Event :=
  runUnlinks (cleanupList req) fs

/-- `cleanUploadedFilesMiddleware`: `cleanupFiles(req).finally(next)` —
the cleanup pass settles, then `next` is called with no error. -/
def cleanUploadedFilesMiddleware (req : UploadRequest) (fs : List String) :
    List String × List Event :=
  let c := cleanupFiles req fs
  (c.1, c.2 ++ [Event.nextCalled none])

/-- The `switch (err.code)` of `uploadErrorHandlerMiddleware`: the seven
multer limit codes rewritten to an `UPLOAD_` code. -/
def isRecognizedLimitCode (code : String) : Bool :=
  code == "LIMIT_PART_COUNT" || code == "LIMIT_FILE_SIZE" ||
  code == "LIMIT_FILE_COUNT" || code == "LIMIT_FIELD_KEY" ||
  code == "LIMIT_FIELD_VALUE" || code == "LIMIT_FIELD_COUNT" ||
  code == "LIMIT_UNEXPECTED_FILE"

/-- The `ErrorResponse` built by `uploadErrorHandlerMiddleware` for a
`MulterError`: status 400, message passed through, code `BAD_REQUEST`
unless the limit code is recognized, in which case `UPLOAD_` + code. -/
def multerResponse (code message : String) : ErrorResponse :=
  ⟨false, 400,
    if isRecognizedLimitCode code then "UPLOAD_" ++ code else "BAD_REQUEST",
    message⟩

/-- The translation decision of `uploadErrorHandlerMiddleware`: a
`MulterError` becomes the translated `ErrorResponse`; anything else is
forwarded as the identical value. -/
def translateError : Err → Err
  | Err.multer c m => Err.response (multerResponse c m)
  | e => e

/-- `uploadErrorHandlerMiddleware`: awaits `cleanupFiles(req)` first, then
calls `next` with the translated error (or the original error unchanged
when it is not a `MulterError`). -/
def uploadErrorHandlerMiddleware (err : Err) (req : UploadRequest)
    (fs : List String) : List String × List Event :=
  let c := cleanupFiles req fs
  (c.1, c.2 ++ [Event.nextCalled (some (translateError err))])

/-- The three ways a request's handling chain terminates. -/
inductive ExitPath where
  | success
  | validationFail (e : ErrorResponse)
  | transportError (code message : String)
deriving DecidableEq

/-- Modelled from the spec: the pipeline wiring (server bootstrap) is not
under src/. Per sections 2 and 4.4 of the spec, successful validation and
downstream dispatch end in the Cleanup Handler, while a validation
rejection or a framework-level upload error reaches the Upload Error
Translator. -/
def terminateRequest : ExitPath → UploadRequest → List String →
    List String × List Event
  | ExitPath.success, req, fs => cleanUploadedFilesMiddleware req fs
  | ExitPath.validationFail e, req, fs =>
    uploadErrorHandlerMiddleware (Err.response e) req fs
  | ExitPath.transportError c m, req, fs =>
    uploadErrorHandlerMiddleware (Err.multer c m) req fs

/-- The paths whose removal a trace attempted, in order. -/
def attemptedPaths (evs : List Event) : List String :=
  evs.filterMap (fun e =>
    match e with
    | Event.unlinked p _ => some p
    | _ => none)

/-- The list of codes the `switch` recognizes, as the spec enumerates. -/
def recognizedLimitCodes : List String :=
  ["LIMIT_PART_COUNT", "LIMIT_FILE_SIZE", "LIMIT_FILE_COUNT",
   "LIMIT_FIELD_KEY", "LIMIT_FIELD_VALUE", "LIMIT_FIELD_COUNT",
   "LIMIT_UNEXPECTED_FILE"]

/-- A file violating the validator's per-file rules: non-image MIME type
or zero size. -/
def violatesUploadRules (f : StagedFile) : Bool :=
  !(jsStartsWith f.mimetype "image/") || (f.size == 0)

theorem isRecognizedLimitCode_iff (c : String) :
    isRecognizedLimitCode c = true ↔ c ∈ recognizedLimitCodes := by
  simp [isRecognizedLimitCode, recognizedLimitCodes, or_assoc]

theorem mem_runUnlinks_fst (ps : List String) (fs : List String) (q : String) :
    q ∈ (runUnlinks ps fs).1 ↔ q ∈ fs ∧ q ∉ ps := by
  induction ps generalizing fs with
  | nil => simp [runUnlinks]
  | cons p ps ih =>
    simp only [runUnlinks, unlink, ih, List.mem_filter, List.mem_cons]
    constructor
    · rintro ⟨⟨hfs, hne⟩, hps⟩
      refine ⟨hfs, ?_⟩
      rintro (rfl | h)
      · simp at hne
      · exact hps h
    · rintro ⟨hfs, hn⟩
      refine ⟨⟨hfs, ?_⟩, fun h => hn (Or.inr h)⟩
      simp only [Bool.not_eq_true', beq_eq_false_iff_ne, ne_eq]
      exact fun h => hn (Or.inl h)

theorem runUnlinks_fst_of_disjoint (ps : List String) (fs : List String)
    (h : ∀ p ∈ ps, p ∉ fs) : (runUnlinks ps fs).1 = fs := by
  induction ps generalizing fs with
  | nil => rfl
  | cons p ps ih =>
    have hfix : fs.filter (fun q => !(q == p)) = fs := by
      apply List.filter_eq_self.mpr
      intro a ha
      simp only [Bool.not_eq_true', beq_eq_false_iff_ne, ne_eq]
      intro hEq
      exact h p (List.mem_cons_self p ps) (hEq ▸ ha)
    simp only [runUnlinks, unlink, hfix]
    exact ih fs fun q hq => h q (List.mem_cons_of_mem p hq)

theorem attemptedPaths_runUnlinks (ps : List String) (fs : List String) :
    attemptedPaths (runUnlinks ps fs).2 = ps := by
  induction ps generalizing fs with
  | nil => rfl
  | cons p ps ih => simp [runUnlinks, attemptedPaths] at ih ⊢; exact ih _

theorem runUnlinks_events_shape (ps : List String) (fs : List String) :
    ∀ e ∈ (runUnlinks ps fs).2, ∃ p ok, e = Event.unlinked p ok := by
  induction ps generalizing fs with
  | nil => intro e he; simp [runUnlinks] at he
  | cons p ps ih =>
    intro e he
    simp only [runUnlinks, List.mem_cons] at he
    rcases he with rfl | he
    · exact ⟨p, _, rfl⟩
    · exact ih _ e he

theorem runUnlinks_failed_event (ps : List String) (fs : List String)
    (p : String) (hp : p ∈ ps) (hfs : p ∉ fs) :
    Event.unlinked p false ∈ (runUnlinks ps fs).2 := by
  induction ps generalizing fs with
  | nil => simp at hp
  | cons q ps ih =>
    simp only [runUnlinks, unlink, List.mem_cons] at hp ⊢
    rcases hp with rfl | hp
    · left
      have : fs.contains p = false := by
        simpa using hfs
      rw [this]
    · right
      apply ih _ hp
      intro hmem
      exact hfs (List.mem_of_mem_filter hmem)

theorem getLast?_append_nextCalled (l : List Event) (x : Option Err) :
    (l ++ [Event.nextCalled x]).getLast? = some (Event.nextCalled x) := by
  simp [List.getLast?_append]

theorem checkFilesLoop_eq_find (l : List StagedFile) :
    checkFilesLoop l =
      match l.find? violatesUploadRules with
      | none => none
      | some f =>
        some (if !(jsStartsWith f.mimetype "image/") then badFile
              else emptyFile) := by
  induction l with
  | nil => rfl
  | cons f rest ih =>
    by_cases h1 : jsStartsWith f.mimetype "image/" = true
    · by_cases h2 : f.size = 0
      · simp [checkFilesLoop, List.find?_cons, violatesUploadRules, h1, h2]
      · simp [checkFilesLoop, List.find?_cons, violatesUploadRules, h1, h2, ih]
    · simp only [Bool.not_eq_true] at h1
      simp [checkFilesLoop, List.find?_cons, violatesUploadRules, h1]

example : cleanupList ⟨some ⟨"a", "p1", "image/png", 3⟩, none⟩ = ["p1"] := by
  decide

example :
    uploadSingleFileMiddleware ⟨some ⟨"a", "p1", "text/plain", 3⟩, none⟩ =
      some badFile := by
  decide

example :
    uploadMultipleFilesMiddleware 2
      ⟨none, some (ReqFiles.array [⟨"a", "p1", "image/png", 3⟩])⟩ =
      some tooFewFiles := by
  decide

example :
    cleanupFiles ⟨none, some (ReqFiles.array [⟨"a", "p1", "image/png", 3⟩])⟩
      ["p1", "q"] = (["q"], [Event.unlinked "p1" true]) := by
  decide

/-- C2: on a single-file endpoint the validator fails with NO_FILES (400)
when no file was received; otherwise with UNSUPPORTED_FILE (400) when the
declared MIME type does not start with "image/"; otherwise with
EMPTY_FILE (400) when the size is exactly zero; otherwise passes control
onward with no error. -/
theorem upload_single_file_validator_spec (req : UploadRequest) :
    (req.file = none → uploadSingleFileMiddleware req = some noFile) ∧
    (∀ f, req.file = some f → jsStartsWith f.mimetype "image/" = false →
      uploadSingleFileMiddleware req = some badFile) ∧
    (∀ f, req.file = some f → jsStartsWith f.mimetype "image/" = true →
      f.size = 0 → uploadSingleFileMiddleware req = some emptyFile) ∧
    (∀ f, req.file = some f → jsStartsWith f.mimetype "image/" = true →
      f.size ≠ 0 → uploadSingleFileMiddleware req = none) := by
  refine ⟨?_, ?_, ?_, ?_⟩
  · intro h; simp [uploadSingleFileMiddleware, h]
  · intro f h hm; simp [uploadSingleFileMiddleware, h, hm]
  · intro f h hm hs; simp [uploadSingleFileMiddleware, h, hm, hs]
  · intro f h hm hs; simp [uploadSingleFileMiddleware, h, hm, hs]

/-- Witness for C2: the four branches at concrete requests. -/
theorem upload_single_file_validator_spec_witness :
    uploadSingleFileMiddleware ⟨none, none⟩ = some noFile ∧
    uploadSingleFileMiddleware ⟨some ⟨"a", "p", "text/plain", 5⟩, none⟩ =
      some badFile ∧
    uploadSingleFileMiddleware ⟨some ⟨"a", "p", "image/png", 0⟩, none⟩ =
      some emptyFile ∧
    uploadSingleFileMiddleware ⟨some ⟨"a", "p", "image/png", 5⟩, none⟩ =
      none :=
  ⟨(upload_single_file_validator_spec ⟨none, none⟩).1 rfl,
   (upload_single_file_validator_spec _).2.1 ⟨"a", "p", "text/plain", 5⟩
     rfl (by decide),
   (upload_single_file_validator_spec _).2.2.1 ⟨"a", "p", "image/png", 0⟩
     rfl (by decide) rfl,
   (upload_single_file_validator_spec _).2.2.2 ⟨"a", "p", "image/png", 5⟩
     rfl (by decide) (by decide)⟩

/-- C3: on a multi-file endpoint the validator fails with NO_FILES (400)
when the file collection is absent, grouped (not an array), or empty;
otherwise with TOO_FEW_FILES (400) when the count is below `minFiles`;
otherwise the first file (in array order) violating a rule fails the
request — UNSUPPORTED_FILE for a non-image MIME type, EMPTY_FILE for zero
size, the type check taking precedence per file; if all pass, no error. -/
theorem upload_multiple_files_validator_spec (minFiles : Nat)
    (req : UploadRequest) :
    (req.files = none → uploadMultipleFilesMiddleware minFiles req = some noFile) ∧
    (∀ gs, req.files = some (ReqFiles.grouped gs) →
      uploadMultipleFilesMiddleware minFiles req = some noFile) ∧
    (∀ l, req.files = some (ReqFiles.array l) → l = [] →
      uploadMultipleFilesMiddleware minFiles req = some noFile) ∧
    (∀ l, req.files = some (ReqFiles.array l) → l ≠ [] →
      l.length < minFiles →
      uploadMultipleFilesMiddleware minFiles req = some tooFewFiles) ∧
    (∀ l, req.files = some (ReqFiles.array l) → l ≠ [] →
      minFiles ≤ l.length → l.find? violatesUploadRules = none →
      uploadMultipleFilesMiddleware minFiles req = none) ∧
    (∀ l f, req.files = some (ReqFiles.array l) → l ≠ [] →
      minFiles ≤ l.length → l.find? violatesUploadRules = some f →
      uploadMultipleFilesMiddleware minFiles req =
        some (if !(jsStartsWith f.mimetype "image/") then badFile
              else emptyFile)) := by
  refine ⟨?_, ?_, ?_, ?_, ?_, ?_⟩
  · intro h; simp [uploadMultipleFilesMiddleware, h]
  · intro gs h; simp [uploadMultipleFilesMiddleware, h]
  · intro l h hl; subst hl; simp [uploadMultipleFilesMiddleware, h]
  · intro l h hne hlt
    have hlen : l.length ≠ 0 := by
      simpa using fun h0 => hne (List.length_eq_zero.mp h0)
    simp [uploadMultipleFilesMiddleware, h, hlen, hlt]
  · intro l h hne hge hfind
    have hlen : l.length ≠ 0 := by
      simpa using fun h0 => hne (List.length_eq_zero.mp h0)
    have hnlt : ¬ l.length < minFiles := Nat.not_lt.mpr hge
    simp [uploadMultipleFilesMiddleware, h, hlen, hnlt,
      checkFilesLoop_eq_find, hfind]
  · intro l f h hne hge hfind
    have hlen : l.length ≠ 0 := by
      simpa using fun h0 => hne (List.length_eq_zero.mp h0)
    have hnlt : ¬ l.length < minFiles := Nat.not_lt.mpr hge
    simp [uploadMultipleFilesMiddleware, h, hlen, hnlt,
      checkFilesLoop_eq_find, hfind]

/-- Witness for C3: the six branches at concrete requests with
minFiles = 2. -/
theorem upload_multiple_files_validator_spec_witness :
    uploadMultipleFilesMiddleware 2 ⟨none, none⟩ = some noFile ∧
    uploadMultipleFilesMiddleware 2
      ⟨none, some (ReqFiles.grouped [("a", [⟨"a", "p", "image/png", 5⟩])])⟩ =
      some noFile ∧
    uploadMultipleFilesMiddleware 2 ⟨none, some (ReqFiles.array [])⟩ =
      some noFile ∧
    uploadMultipleFilesMiddleware 2
      ⟨none, some (ReqFiles.array [⟨"a", "p", "image/png", 5⟩])⟩ =
      some tooFewFiles ∧
    uploadMultipleFilesMiddleware 2
      ⟨none, some (ReqFiles.array
        [⟨"a", "p", "image/png", 5⟩, ⟨"a", "q", "image/jpeg", 7⟩])⟩ =
      none ∧
    uploadMultipleFilesMiddleware 2
      ⟨none, some (ReqFiles.array
        [⟨"a", "p", "image/png", 5⟩, ⟨"a", "q", "text/plain", 7⟩])⟩ =
      some badFile :=
  ⟨(upload_multiple_files_validator_spec 2 ⟨none, none⟩).1 rfl,
   (upload_multiple_files_validator_spec 2 _).2.1 _ rfl,
   (upload_multiple_files_validator_spec 2 _).2.2.1 _ rfl rfl,
   (upload_multiple_files_validator_spec 2 _).2.2.2.1 _ rfl
     (by decide) (by decide),
   (upload_multiple_files_validator_spec 2 _).2.2.2.2.1 _ rfl
     (by decide) (by decide) (by decide),
   by
    have := (upload_multiple_files_validator_spec 2
      ⟨none, some (ReqFiles.array
        [⟨"a", "p", "image/png", 5⟩, ⟨"a", "q", "text/plain", 7⟩])⟩).2.2.2.2.2
      _ ⟨"a", "q", "text/plain", 7⟩ rfl (by decide) (by decide) (by decide)
    simpa using this⟩

/-- C10: a grouped (non-array) `req.files` makes the multi-file validator
fail with NO_FILES no matter how many files the groups hold, while the
cleanup pass does recognize the grouped shape and attempts removal of
every file in every field group. -/
theorem grouped_files_rejected_but_cleaned (minFiles : Nat)
    (gs : List (String × List StagedFile)) (fs : List String) :
    uploadMultipleFilesMiddleware minFiles
      ⟨none, some (ReqFiles.grouped gs)⟩ = some noFile ∧
    attemptedPaths
      (cleanupFiles ⟨none, some (ReqFiles.grouped gs)⟩ fs).2 =
      (gs.map (fun g => g.2.map (fun f => f.path))).flatten := by
  constructor
  · rfl
  · simpa [cleanupFiles, cleanupList] using
      attemptedPaths_runUnlinks _ fs

/-- C4: the error translator turns a recognized multer limit error into an
ErrorResponse with success false, status 400, the message passed through
unchanged, and code UPLOAD_ prefixed to the limit code exactly for the
seven recognized limit kinds, BAD_REQUEST for any other multer code. -/
theorem multer_limit_error_translation_spec (c m : String) :
    (c ∈ recognizedLimitCodes →
      translateError (Err.multer c m) =
        Err.response ⟨false, 400, "UPLOAD_" ++ c, m⟩) ∧
    (c ∉ recognizedLimitCodes →
      translateError (Err.multer c m) =
        Err.response ⟨false, 400, "BAD_REQUEST", m⟩) := by
  constructor
  · intro h
    have hc : isRecognizedLimitCode c = true :=
      (isRecognizedLimitCode_iff c).mpr h
    simp [translateError, multerResponse, hc]
  · intro h
    have hc : isRecognizedLimitCode c = false := by
      rcases Bool.eq_false_or_eq_true (isRecognizedLimitCode c) with ht | hf
      · exact absurd ((isRecognizedLimitCode_iff c).mp ht) h
      · exact hf
    simp [translateError, multerResponse, hc]

/-- Witness for C4: a recognized limit code and an unrecognized one. -/
theorem multer_limit_error_translation_spec_witness :
    translateError (Err.multer "LIMIT_FILE_SIZE" "File too large") =
      Err.response ⟨false, 400, "UPLOAD_LIMIT_FILE_SIZE", "File too large"⟩ ∧
    translateError (Err.multer "MISSING_FIELD_NAME" "Field name missing") =
      Err.response ⟨false, 400, "BAD_REQUEST", "Field name missing"⟩ :=
  ⟨(multer_limit_error_translation_spec "LIMIT_FILE_SIZE" "File too large").1
     (by decide),
   (multer_limit_error_translation_spec "MISSING_FIELD_NAME"
     "Field name missing").2 (by decide)⟩

/-- C5: the error handler runs the cleanup pass first, unconditionally —
its filesystem effect is exactly the cleanup pass's, and its trace is the
cleanup trace followed by the single call to `next` — and every error that
is not a multer error is forwarded to `next` as the identical value. -/
theorem error_handler_cleanup_first_and_passthrough (err : Err)
    (req : UploadRequest) (fs : List String) :
    (uploadErrorHandlerMiddleware err req fs).1 = (cleanupFiles req fs).1 ∧
    (uploadErrorHandlerMiddleware err req fs).2 =
      (cleanupFiles req fs).2 ++
        [Event.nextCalled (some (translateError err))] ∧
    ((∀ c m, err ≠ Err.multer c m) → translateError err = err) := by
  refine ⟨rfl, rfl, ?_⟩
  intro h
  cases err with
  | multer c m => exact absurd rfl (h c m)
  | response r => rfl
  | generic t => rfl

/-- Witness for C5: a generic error at a concrete request is forwarded
unchanged after the cleanup trace. -/
theorem error_handler_cleanup_first_and_passthrough_witness :
    translateError (Err.generic "boom") = Err.generic "boom" :=
  (error_handler_cleanup_first_and_passthrough (Err.generic "boom")
    ⟨none, none⟩ []).2.2 (fun _ _ h => Err.noConfusion h)

/-- C1: whichever way the request handling chain terminates — success,
validation rejection, or transport-level upload error — the same cleanup
pass runs, and afterwards no staged file of the request remains on disk. -/
theorem staged_files_removed_on_every_exit_path (path : ExitPath)
    (req : UploadRequest) (fs : List String) :
    (terminateRequest path req fs).1 = (cleanupFiles req fs).1 ∧
    ∀ p, p ∈ cleanupList req → p ∉ (terminateRequest path req fs).1 := by
  have hfst : (terminateRequest path req fs).1 = (cleanupFiles req fs).1 := by
    cases path <;> rfl
  refine ⟨hfst, ?_⟩
  intro p hp hmem
  rw [hfst] at hmem
  exact ((mem_runUnlinks_fst (cleanupList req) fs p).mp hmem).2 hp

/-- Witness for C1: after a validation rejection on a request with one
staged file, the staged path is gone from the filesystem. -/
theorem staged_files_removed_on_every_exit_path_witness :
    "p1" ∉ (terminateRequest (ExitPath.validationFail noFile)
      ⟨some ⟨"a", "p1", "image/png", 5⟩, none⟩ ["p1", "other"]).1 :=
  (staged_files_removed_on_every_exit_path (ExitPath.validationFail noFile)
    ⟨some ⟨"a", "p1", "image/png", 5⟩, none⟩ ["p1", "other"]).2 "p1"
    (by decide)

/-- C6: the cleanup pass attempts removal of exactly the staged files the
request context references — the single file when present, else every
file of an array collection, else every file of every field group — and
is a no-op (no removal attempt, no error) when zero files were staged. -/
theorem cleanup_targets_exactly_staged_files (req : UploadRequest)
    (fs : List String) :
    attemptedPaths (cleanupFiles req fs).2 = cleanupList req ∧
    (∀ f, req.file = some f → cleanupList req = [f.path]) ∧
    (∀ l, req.file = none → req.files = some (ReqFiles.array l) →
      cleanupList req = l.map (fun f => f.path)) ∧
    (∀ gs, req.file = none → req.files = some (ReqFiles.grouped gs) →
      cleanupList req =
        (gs.map (fun g => g.2.map (fun f => f.path))).flatten) ∧
    (cleanupList req = [] → cleanupFiles req fs = (fs, [])) := by
  refine ⟨attemptedPaths_runUnlinks _ fs, ?_, ?_, ?_, ?_⟩
  · intro f h; simp [cleanupList, h]
  · intro l h hl; simp [cleanupList, h, hl]
  · intro gs h hgs; simp [cleanupList, h, hgs]
  · intro h; simp [cleanupFiles, h, runUnlinks]

/-- Witness for C6: each branch of the claim at a concrete context, and
the no-op on a context with nothing staged. -/
theorem cleanup_targets_exactly_staged_files_witness :
    cleanupList ⟨some ⟨"a", "p1", "image/png", 5⟩, none⟩ = ["p1"] ∧
    cleanupList ⟨none, some (ReqFiles.array
      [⟨"a", "p1", "image/png", 5⟩, ⟨"a", "p2", "image/png", 6⟩])⟩ =
      ["p1", "p2"] ∧
    cleanupList ⟨none, some (ReqFiles.grouped
      [("a", [⟨"a", "p1", "image/png", 5⟩]),
       ("b", [⟨"b", "p2", "image/png", 6⟩])])⟩ = ["p1", "p2"] ∧
    cleanupFiles ⟨none, none⟩ ["q"] = (["q"], []) := by
  refine ⟨?_, ?_, ?_, ?_⟩
  · exact (cleanup_targets_exactly_staged_files
      ⟨some ⟨"a", "p1", "image/png", 5⟩, none⟩ []).2.1 _ rfl
  · have := (cleanup_targets_exactly_staged_files
      ⟨none, some (ReqFiles.array
        [⟨"a", "p1", "image/png", 5⟩, ⟨"a", "p2", "image/png", 6⟩])⟩ []).2.2.1
      _ rfl rfl
    simpa using this
  · have := (cleanup_targets_exactly_staged_files
      ⟨none, some (ReqFiles.grouped
        [("a", [⟨"a", "p1", "image/png", 5⟩]),
         ("b", [⟨"b", "p2", "image/png", 6⟩])])⟩ []).2.2.2.1 _ rfl rfl
    simpa using this
  · exact (cleanup_targets_exactly_staged_files ⟨none, none⟩
      ["q"]).2.2.2.2 rfl

/-- C7: a failing individual removal (the path is absent from the
filesystem) is not escalated: the cleanup middleware still completes by
calling `next` with no error, and the error handler still calls `next`
with the translated (or forwarded) original error, never with the removal
failure. -/
theorem failed_unlink_not_escalated (req : UploadRequest)
    (fs : List String) (err : Err) (p : String)
    (hp : p ∈ cleanupList req) (habs : p ∉ fs) :
    (Event.unlinked p false ∈ (cleanUploadedFilesMiddleware req fs).2 ∧
      (cleanUploadedFilesMiddleware req fs).2.getLast? =
        some (Event.nextCalled none)) ∧
    (Event.unlinked p false ∈ (uploadErrorHandlerMiddleware err req fs).2 ∧
      (uploadErrorHandlerMiddleware err req fs).2.getLast? =
        some (Event.nextCalled (some (translateError err)))) := by
  have hev : Event.unlinked p false ∈ (runUnlinks (cleanupList req) fs).2 :=
    runUnlinks_failed_event (cleanupList req) fs p hp habs
  refine ⟨⟨?_, ?_⟩, ⟨?_, ?_⟩⟩
  · exact List.mem_append_left _ hev
  · exact getLast?_append_nextCalled _ none
  · exact List.mem_append_left _ hev
  · exact getLast?_append_nextCalled _ _

/-- Witness for C7: the staged path is already missing; both teardown
stages still end by calling `next` as expected. -/
theorem failed_unlink_not_escalated_witness :
    (Event.unlinked "p1" false ∈
      (cleanUploadedFilesMiddleware
        ⟨some ⟨"a", "p1", "image/png", 5⟩, none⟩ ["other"]).2 ∧
      (cleanUploadedFilesMiddleware
        ⟨some ⟨"a", "p1", "image/png", 5⟩, none⟩ ["other"]).2.getLast? =
        some (Event.nextCalled none)) ∧
    (Event.unlinked "p1" false ∈
      (uploadErrorHandlerMiddleware (Err.generic "boom")
        ⟨some ⟨"a", "p1", "image/png", 5⟩, none⟩ ["other"]).2 ∧
      (uploadErrorHandlerMiddleware (Err.generic "boom")
        ⟨some ⟨"a", "p1", "image/png", 5⟩, none⟩ ["other"]).2.getLast? =
        some (Event.nextCalled (some (translateError (Err.generic "boom"))))) :=
  failed_unlink_not_escalated ⟨some ⟨"a", "p1", "image/png", 5⟩, none⟩
    ["other"] (Err.generic "boom") "p1" (by decide) (by decide)

/-- C8: cleanup is idempotent — running the cleanup middleware a second
time on the same request context leaves the filesystem unchanged, still
completes by calling `next` with no error, and never passes any error to
`next`. -/
theorem cleanup_idempotent (req : UploadRequest) (fs : List String) :
    (cleanUploadedFilesMiddleware req
      (cleanUploadedFilesMiddleware req fs).1).1 =
      (cleanUploadedFilesMiddleware req fs).1 ∧
    (cleanUploadedFilesMiddleware req
      (cleanUploadedFilesMiddleware req fs).1).2.getLast? =
      some (Event.nextCalled none) ∧
    (∀ e : Err, Event.nextCalled (some e) ∉
      (cleanUploadedFilesMiddleware req
        (cleanUploadedFilesMiddleware req fs).1).2) := by
  refine ⟨?_, getLast?_append_nextCalled _ none, ?_⟩
  · show (runUnlinks (cleanupList req) (runUnlinks (cleanupList req) fs).1).1 =
      (runUnlinks (cleanupList req) fs).1
    apply runUnlinks_fst_of_disjoint
    intro p hp hmem
    exact ((mem_runUnlinks_fst (cleanupList req) fs p).mp hmem).2 hp
  · intro e hmem
    rcases List.mem_append.mp hmem with hin | hin
    · rcases runUnlinks_events_shape _ _ _ hin with ⟨p, ok, h⟩
      exact Event.noConfusion h
    · rcases List.mem_singleton.mp hin with h
      have : (some e : Option Err) = none := Event.nextCalled.inj h
      exact Option.noConfusion this

/-- Witness for C8: a second cleanup on a context with one staged file
changes nothing and passes no error to `next`. -/
theorem cleanup_idempotent_witness :
    Event.nextCalled (some (Err.generic "x")) ∉
      (cleanUploadedFilesMiddleware ⟨some ⟨"a", "p1", "image/png", 5⟩, none⟩
        (cleanUploadedFilesMiddleware ⟨some ⟨"a", "p1", "image/png", 5⟩, none⟩
          ["p1"]).1).2 :=
  (cleanup_idempotent ⟨some ⟨"a", "p1", "image/png", 5⟩, none⟩ ["p1"]).2.2
    (Err.generic "x")

/-- C9: when both a single staged file and a files collection are present,
the cleanup pass targets only the single file: the attempted paths are
exactly the single file's path, and any collection file with a different
path survives on disk. -/
theorem cleanup_single_file_precedence (f : StagedFile) (shape : ReqFiles)
    (fs : List String) :
    cleanupList ⟨some f, some shape⟩ = [f.path] ∧
    attemptedPaths (cleanupFiles ⟨some f, some shape⟩ fs).2 = [f.path] ∧
    (∀ p, p ∈ cleanupList ⟨none, some shape⟩ → p ≠ f.path → p ∈ fs →
      p ∈ (cleanupFiles ⟨some f, some shape⟩ fs).1) := by
  refine ⟨rfl, ?_, ?_⟩
  · simpa [cleanupFiles, cleanupList] using
      attemptedPaths_runUnlinks [f.path] fs
  · intro p _ hne hfs
    apply (mem_runUnlinks_fst (cleanupList ⟨some f, some shape⟩) fs p).mpr
    refine ⟨hfs, ?_⟩
    intro hmem
    exact hne (List.mem_singleton.mp hmem)

/-- Witness for C9: with a single file "p1" and a collection holding "p2",
only "p1" is attempted and "p2" survives. -/
theorem cleanup_single_file_precedence_witness :
    cleanupList ⟨some ⟨"a", "p1", "image/png", 5⟩,
      some (ReqFiles.array [⟨"b", "p2", "image/png", 6⟩])⟩ = ["p1"] ∧
    "p2" ∈ (cleanupFiles ⟨some ⟨"a", "p1", "image/png", 5⟩,
      some (ReqFiles.array [⟨"b", "p2", "image/png", 6⟩])⟩ ["p1", "p2"]).1 :=
  ⟨(cleanup_single_file_precedence ⟨"a", "p1", "image/png", 5⟩
      (ReqFiles.array [⟨"b", "p2", "image/png", 6⟩]) ["p1", "p2"]).1,
   (cleanup_single_file_precedence ⟨"a", "p1", "image/png", 5⟩
      (ReqFiles.array [⟨"b", "p2", "image/png", 6⟩]) ["p1", "p2"]).2.2 "p2"
      (by decide) (by decide) (by decide)⟩
